import Mathlib

/-!
Verification of the adaptive document chunking pipeline implemented by
class FileProcessor in app/services/utils/process_file.py, together with
the page-count inspector of app/services/utils/document_ocr.py.

The embedding models a source file abstractly: a PDF is identified with its
list of page indices, and the byte size of a serialized chunk holding a
given page list is an abstract parameter sizeOf : List Nat -> Nat
(the code measures it with os.path.getsize on the saved trial document).
Fallible library calls (fitz.open, PyPDF2, PIL.Image.open, document save)
are modelled by explicit Boolean or Option-valued failure flags carried in
the file model; a Python except branch becomes the corresponding branch of
the Lean definition.  Temporary files written by a splitting routine are
tracked as a list of path strings, so that the cleanup behaviour of the
orchestrator is observable.
-/

namespace ChunkPipeline

/-- Format of a source file as the code derives it from the extension:
process_file.py branches on suffix == ".pdf" versus everything else
(treated as a raster image). -/
inductive FileFormat
  | pdf
  | image
deriving DecidableEq, Repr

/-- Color mode of a PIL image, as tested by split_image_by_size:
the code converts RGBA, LA and P to RGB before saving as JPEG. -/
inductive ImgMode
  | rgb
  | rgba
  | la
  | p
  | other
deriving DecidableEq, Repr

/-- One chunk handed to the OCR loop: either the original source file
(the default `chunks = [file_path]` and every except-branch fallback),
a PDF chunk file holding a list of source page indices, or a re-encoded
image chunk with its JPEG quality and color mode. -/
inductive Chunk
  | original
  | pdfChunk (path : String) (pages : List Nat)
  | imageChunk (path : String) (quality : Nat) (mode : ImgMode)
deriving DecidableEq, Repr

/-- Observable state of one source file, including the outcome of each
fallible library call the pipeline makes on it.  `pages` is the true page
count that a successful fitz.open reports; `infoFitzOk` and `infoPypdfOk`
model the two page-count reads in get_file_info; `splitFailAt = some k`
models an exception raised inside a PDF splitting routine at the start of
its k-th loop iteration; `imgRaises` models an exception inside
split_image_by_size. -/
structure FileModel where
  onDisk : Bool
  fname : String
  fmt : FileFormat
  size : Nat
  pages : Nat
  infoFitzOk : Bool
  infoPypdfOk : Bool
  splitFailAt : Option Nat
  imgMode : ImgMode
  imgRaises : Bool
deriving DecidableEq, Repr

/-- Limits carried by a FileProcessor instance (fields max_size_bytes and
max_pages set in FileProcessor.__init__). -/
structure FileProcessorCfg where
  max_size_bytes : Nat
  max_pages : Nat
deriving DecidableEq, Repr

/-- Default limits from FileProcessor.__init__: max_size_mb = 10 so
max_size_bytes = 10 * 1024 * 1024, and max_pages = 10. -/
def defaultCfg : FileProcessorCfg := ⟨10 * 1024 * 1024, 10⟩

/-- FileProcessor.get_file_info (process_file.py lines 15-42): returns
(file size, page count).  For a PDF the page count is read with fitz
(PyMuPDF); on failure it falls back to PyPDF2; if that also fails the
count defaults to 1.  For any non-PDF file the count is 1. -/
def get_file_info (f : FileModel) : Nat × Nat :=
  let page_count : Nat :=
    match f.fmt with
    | .pdf =>
        if f.infoFitzOk then f.pages
        else if f.infoPypdfOk then f.pages
        else 1
    | .image => 1
  (f.size, page_count)

/-- Page indices of the i-th chunk produced by split_pdf_by_pages: the
loop body at process_file.py lines 120-131 takes pages from start_page =
i * max_pages to min(start_page + max_pages - 1, total_pages - 1)
inclusive. -/
def pageChunk (m total i : Nat) : List Nat :=
  List.range' (i * m) (min m (total - i * m))

/-- FileProcessor.split_pdf_by_pages (process_file.py lines 110-139),
success path, as page-index lists: the Python loop
`for start_page in range(0, total_pages, max_pages)` visits the
ceil(total / m) starts 0, m, 2m, ... and emits one contiguous chunk per
start. -/
def split_pdf_by_pages (total m : Nat) : List (List Nat) :=
  (List.range ((total + m - 1) / m)).map (pageChunk m total)

/-- One iteration of the split_pdf_by_size loop (process_file.py lines
56-88) on the state (finalized chunks, current accumulator): append the
next page, serialize the trial chunk, and if its size exceeds the target
while the accumulator holds more than one page, finalize the pages before
the appended one as a chunk and restart the accumulator with that page. -/
def sizeStep (sizeOf : List Nat → Nat) (target : Nat)
    (st : List (List Nat) × List Nat) (page : Nat) : List (List Nat) × List Nat :=
  let trial := st.2 ++ [page]
  if target < sizeOf trial ∧ 1 < trial.length then
    (st.1 ++ [st.2], [page])
  else
    (st.1, trial)

/-- FileProcessor.split_pdf_by_size (process_file.py lines 44-108),
success path, as page-index lists: fold the loop body over all pages in
order, then append the remaining accumulator as the last chunk when it is
nonempty (lines 91-100). -/
def split_pdf_by_size (sizeOf : List Nat → Nat) (target total : Nat) : List (List Nat) :=
  let st := (List.range total).foldl (sizeStep sizeOf target) ([], [])
  if st.2 = [] then st.1 else st.1 ++ [st.2]

/-- Path of the n-th finalized chunk file, as built at process_file.py
lines 74 and 92: os.path.join(temp_dir, "chunk_{n}.pdf"). -/
def chunkFileName (tempDir : String) (n : Nat) : String :=
  tempDir ++ "/chunk_" ++ toString n ++ ".pdf"

/-- Attach on-disk chunk file names to a list of page-index chunks, with
the running counter chunk_num starting at i (the code increments
chunk_num once per finalized chunk). -/
def nameChunks (tempDir : String) : Nat → List (List Nat) → List Chunk
  | _, [] => []
  | i, ps :: rest => Chunk.pdfChunk (chunkFileName tempDir i) ps :: nameChunks tempDir (i + 1) rest

/-- Path of the temporary file a chunk occupies, none for the original
source file (the orchestrator cleanup at lines 238-239 skips chunk paths
equal to the source path). -/
def chunkPath : Chunk → Option String
  | .original => none
  | .pdfChunk p _ => some p
  | .imageChunk p _ _ => some p

/-- Source page indices contained in a chunk. -/
def chunkPages : Chunk → List Nat
  | .original => []
  | .pdfChunk _ ps => ps
  | .imageChunk _ _ _ => []

/-- FileProcessor.split_pdf_by_size with its effects: returns the chunk
list and the temporary chunk files left on disk when the routine returns.
On success (failAt = none) the files on disk are exactly the returned
chunk files.  When an exception is raised at the start of iteration k
(failAt = some k), the except branch at lines 104-106 returns
[file_path], abandoning on disk the chunk files already finalized during
iterations before k; the in-loop trial files were already removed at
line 88. -/
def split_pdf_by_size_run (tempDir : String) (sizeOf : List Nat → Nat) (target : Nat)
    (total : Nat) (failAt : Option Nat) : List Chunk × List String :=
  match failAt with
  | some k =>
      let done := ((List.range (min k total)).foldl (sizeStep sizeOf target) ([], [])).1
      ([Chunk.original], (nameChunks tempDir 0 done).filterMap chunkPath)
  | none =>
      let chunks := nameChunks tempDir 0 (split_pdf_by_size sizeOf target total)
      (chunks, chunks.filterMap chunkPath)

/-- FileProcessor.split_pdf_by_pages with its effects, in the same style:
on an exception at the start of iteration k the except branch at lines
135-137 returns [file_path], leaving the first k chunk files on disk. -/
def split_pdf_by_pages_run (tempDir : String) (total m : Nat) (failAt : Option Nat) :
    List Chunk × List String :=
  match failAt with
  | some k =>
      let done := (split_pdf_by_pages total m).take k
      ([Chunk.original], (nameChunks tempDir 0 done).filterMap chunkPath)
  | none =>
      let chunks := nameChunks tempDir 0 (split_pdf_by_pages total m)
      (chunks, chunks.filterMap chunkPath)

/-- Image file as split_image_by_size observes it: name, current byte
size, PIL color mode. -/
structure ImageFile where
  iname : String
  size : Nat
  mode : ImgMode
deriving DecidableEq, Repr

/-- Color-mode conversion at process_file.py lines 161-162: RGBA, LA and
P are converted to RGB before the JPEG save; other modes pass through. -/
def convertMode : ImgMode → ImgMode
  | .rgba => .rgb
  | .la => .rgb
  | .p => .rgb
  | m => m

/-- Path of the compressed image chunk, built at line 158:
os.path.join(temp_dir, "compressed_" + original name). -/
def compressedName (tempDir : String) (origName : String) : String :=
  tempDir ++ "/compressed_" ++ origName

/-- FileProcessor.split_image_by_size (process_file.py lines 141-171)
with its effects.  An exception (raises = true) hits the except branch at
lines 167-169 and returns [file_path].  A file already within the limit
is returned unchanged (line 151-152).  Otherwise one compressed chunk is
written at quality int((target / current) * 90) clamped into [10, 90];
exact rational arithmetic replaces the Python float division. -/
def split_image_by_size_run (tempDir : String) (img : ImageFile) (target : Nat)
    (raises : Bool) : List Chunk × List String :=
  if raises then ([Chunk.original], [])
  else if img.size ≤ target then ([Chunk.original], [])
  else
    let quality := max 10 (min (target * 90 / img.size) 90)
    let path := compressedName tempDir img.iname
    ([Chunk.imageChunk path quality (convertMode img.mode)], [path])

/-- FileProcessor.needs_splitting (lines 173-177): strict comparisons of
the measured size and page count against the limits. -/
def needs_splitting (P : FileProcessorCfg) (file_size page_count : Nat) : Bool × Bool :=
  (decide (P.max_size_bytes < file_size), decide (P.max_pages < page_count))

/-- Splitting strategy chosen by process_file_with_ocr. -/
inductive SplitAction
  | byPages
  | bySize
  | compressImage
  | noSplit
deriving DecidableEq, Repr

/-- Branch structure of process_file_with_ocr lines 200-214: when either
limit is exceeded, a PDF is split by pages if pages_exceed (page count
takes precedence), else by size; a non-PDF is compressed only if
size_exceeds.  In every remaining case chunks keeps its default value
[file_path]. -/
def select_action (fmt : FileFormat) (size_exceeds pages_exceed : Bool) : SplitAction :=
  if size_exceeds || pages_exceed then
    match fmt with
    | .pdf =>
        if pages_exceed then .byPages
        else if size_exceeds then .bySize
        else .noSplit
    | .image =>
        if size_exceeds then .compressImage else .noSplit
  else .noSplit

/-- Dispatch of the chosen strategy to the splitting routine, with the
arguments process_file_with_ocr passes at lines 206, 209 and 214.  The
PDF splitters reopen the file themselves, so they see the true page count
f.pages, not the possibly-degraded count from get_file_info. -/
def run_split (P : FileProcessorCfg) (tempDir : String) (f : FileModel)
    (sizeOf : List Nat → Nat) : SplitAction → List Chunk × List String
  | .byPages => split_pdf_by_pages_run tempDir f.pages P.max_pages f.splitFailAt
  | .bySize => split_pdf_by_size_run tempDir sizeOf P.max_size_bytes f.pages f.splitFailAt
  | .compressImage =>
      split_image_by_size_run tempDir ⟨f.fname, f.size, f.imgMode⟩ P.max_size_bytes f.imgRaises
  | .noSplit => ([Chunk.original], [])

/-- Whitespace characters removed by the Python str.strip() call at
line 226 (the ASCII whitespace set). -/
def isPyWhitespace (c : Char) : Bool :=
  c == ' ' || c == '\t' || c == '\n' || c == '\r' || c == '\x0b' || c == '\x0c'

/-- Python str.strip(): drop whitespace from both ends of the text. -/
def pyStrip (s : String) : String :=
  ⟨((s.data.dropWhile isPyWhitespace).reverse.dropWhile isPyWhitespace).reverse⟩

/-- Filter applied to each extracted text at line 226: Python
`if text and text.strip():` keeps a text only when it is nonempty and not
whitespace-only. -/
def keepText (t : String) : Bool :=
  !(t == "") && !(pyStrip t == "")

/-- Body of the OCR loop at lines 220-232 acting on the all_text
accumulator: a successful extraction appends its text when keepText
accepts it; an extraction failure (modelled as none) is caught by the
except at line 231 and contributes nothing. -/
def collectStep (extract : Chunk → Option String) (acc : List String) (c : Chunk) :
    List String :=
  match extract c with
  | some t => if keepText t then acc ++ [t] else acc
  | none => acc

/-- The all_text list after the OCR loop has visited every chunk in
order. -/
def collect_texts (extract : Chunk → Option String) (chunks : List Chunk) : List String :=
  chunks.foldl (collectStep extract) []

/-- Combined text produced at line 235: newline join of the collected
texts. -/
def combined_text (extract : Chunk → Option String) (chunks : List Chunk) : String :=
  String.intercalate "\n" (collect_texts extract chunks)

/-- Cleanup loop at lines 238-250: every temporary file whose path is the
path of some returned chunk other than the original source file is
removed; files on disk that are not among the returned chunk paths
survive. -/
def cleanup (chunks : List Chunk) (disk : List String) : List String :=
  disk.filter (fun p => !decide (p ∈ chunks.filterMap chunkPath))

/-- Observable outcome of one process_file_with_ocr call: the combined
text it returns, the chunk list it iterated over, and the temporary files
still on disk after its cleanup loop. -/
structure RunResult where
  text : String
  chunks : List Chunk
  leftover : List String
deriving DecidableEq, Repr

/-- FileProcessor.process_file_with_ocr (process_file.py lines 179-253):
return None when the file does not exist (lines 184-186); otherwise
measure size and page count, decide the strategy, run the splitter,
extract text per chunk with per-chunk exception recovery, join the
non-blank texts with a newline, and clean up the temporary chunk files. -/
def process_file_run (P : FileProcessorCfg) (tempDir : String) (f : FileModel)
    (sizeOf : List Nat → Nat) (extract : Chunk → Option String) : Option RunResult :=
  if !f.onDisk then none
  else
    let info := get_file_info f
    let flags := needs_splitting P info.1 info.2
    let action := select_action f.fmt flags.1 flags.2
    let cd := run_split P tempDir f sizeOf action
    some ⟨combined_text extract cd.1, cd.1, cleanup cd.1 cd.2⟩

/-- Value process_file_with_ocr hands back to its caller: the combined
text, or None for a missing file. -/
def process_file_with_ocr (P : FileProcessorCfg) (tempDir : String) (f : FileModel)
    (sizeOf : List Nat → Nat) (extract : Chunk → Option String) : Option String :=
  (process_file_run P tempDir f sizeOf extract).map RunResult.text

/-- Naming a list of page chunks does not change the pages each chunk
holds, whatever the temporary directory and the starting counter. -/
theorem nameChunks_map_pages (tempDir : String) (l : List (List Nat)) :
    ∀ i : Nat, (nameChunks tempDir i l).map chunkPages = l := by
  induction l with
  | nil => intro i; rfl
  | cons ps rest ih => intro i; simp [nameChunks, chunkPages, ih]

/-- Cleaning a disk that holds exactly the temporary files of the given
chunks removes everything. -/
theorem cleanup_filterMap_self (cs : List Chunk) :
    cleanup cs (cs.filterMap chunkPath) = [] := by
  unfold cleanup
  rw [List.filter_eq_nil_iff]
  intro p hp
  simp [hp]

/-- The OCR accumulator loop computes the successful non-blank texts in
chunk order, appended after whatever the accumulator already held. -/
theorem collect_foldl_eq (extract : Chunk → Option String) (cs : List Chunk) :
    ∀ acc : List String,
      cs.foldl (collectStep extract) acc = acc ++ (cs.filterMap extract).filter keepText := by
  induction cs with
  | nil => intro acc; simp [collect_texts]
  | cons c cs ih =>
      intro acc
      rw [List.foldl_cons, ih]
      cases hx : extract c with
      | none => simp [collectStep, hx, List.filterMap_cons]
      | some t =>
          cases hk : keepText t with
          | true => simp [collectStep, hx, hk, List.filterMap_cons, List.filter_cons]
          | false => simp [collectStep, hx, hk, List.filterMap_cons, List.filter_cons]

/-- The all_text list equals the filtered successful texts in chunk
order. -/
theorem collect_texts_eq (extract : Chunk → Option String) (cs : List Chunk) :
    collect_texts extract cs = (cs.filterMap extract).filter keepText := by
  simpa using collect_foldl_eq extract cs []

/-- Concatenating the page lists of the first n page-based chunks gives
the contiguous page range they cover. -/
theorem pages_flatten_aux (m total : Nat) :
    ∀ n : Nat, ((List.range n).map (pageChunk m total)).flatten
      = List.range' 0 (min (n * m) total) := by
  intro n
  induction n with
  | zero => simp
  | succ n ih =>
      rw [List.range_succ, List.map_append, List.flatten_append, ih]
      simp only [List.map_cons, List.map_nil, List.flatten_cons, List.flatten_nil,
        List.append_nil]
      unfold pageChunk
      by_cases h : total ≤ n * m
      · have h1 : min (n * m) total = total := by omega
        have he : (n + 1) * m = n * m + m := by ring
        have h2 : total - n * m = 0 := by omega
        have h3 : min ((n + 1) * m) total = total := by omega
        rw [h1, h2, h3]
        simp
      · have h1 : min (n * m) total = n * m := by omega
        rw [h1]
        have hap := List.range'_append_1 0 (n * m) (min m (total - n * m))
        rw [Nat.zero_add] at hap
        rw [hap]
        have he : (n + 1) * m = n * m + m := by ring
        congr 1
        omega

/-- Ceiling division rounds the page count up far enough to cover every
page. -/
theorem ceil_mul_ge (total m : Nat) (hm : 0 < m) :
    total ≤ ((total + m - 1) / m) * m := by
  rw [Nat.mul_comm]
  have hd := Nat.div_add_mod (total + m - 1) m
  have hr := Nat.mod_lt (total + m - 1) hm
  revert hd hr
  generalize m * ((total + m - 1) / m) = s
  generalize (total + m - 1) % m = r
  intro hd hr
  omega

/-- The page-based splitter emits every source page exactly once, in
order. -/
theorem split_pdf_by_pages_flatten (total m : Nat) (hm : 0 < m) :
    (split_pdf_by_pages total m).flatten = List.range total := by
  unfold split_pdf_by_pages
  rw [pages_flatten_aux m total, min_eq_right (ceil_mul_ge total m hm),
    ← List.range_eq_range']

/-- No page-based chunk exceeds the page limit. -/
theorem split_pdf_by_pages_chunk_le (total m : Nat) :
    ∀ c ∈ split_pdf_by_pages total m, c.length ≤ m := by
  intro c hc
  unfold split_pdf_by_pages at hc
  rw [List.mem_map] at hc
  obtain ⟨i, _, rfl⟩ := hc
  unfold pageChunk
  rw [List.length_range']
  exact Nat.min_le_left m _

/-- Every page-based chunk other than the last holds exactly m pages. -/
theorem split_pdf_by_pages_nonfinal (total m : Nat) (hm : 0 < m) (i : Nat)
    (h : i + 1 < (split_pdf_by_pages total m).length) :
    ((split_pdf_by_pages total m).get ⟨i, Nat.lt_of_succ_lt h⟩).length = m := by
  have hlen : (split_pdf_by_pages total m).length = (total + m - 1) / m := by
    simp [split_pdf_by_pages]
  simp only [split_pdf_by_pages, List.get_eq_getElem, List.getElem_map, List.getElem_range]
  unfold pageChunk
  rw [List.length_range']
  have h2 : i + 1 < (total + m - 1) / m := by omega
  have h3 : (i + 2) * m ≤ total + m - 1 :=
    (Nat.le_div_iff_mul_le hm).mp (by omega : i + 2 ≤ (total + m - 1) / m)
  have h4 : (i + 2) * m = i * m + 2 * m := by ring
  rw [h4] at h3
  omega

/-- C2: for every PDF and every positive maxPages, the page-based
splitter partitions the page sequence into contiguous groups in original
order with no page duplicated or skipped (the flattening of the chunks is
exactly the page range), every group holds at most maxPages pages, every
group before the final one holds exactly maxPages pages, and a 25-page
PDF with maxPages = 10 yields exactly the chunk sizes [10, 10, 5]. -/
theorem C2_split_by_pages (total m : Nat) (hm : 0 < m) :
    (split_pdf_by_pages total m).flatten = List.range total
    ∧ (∀ c ∈ split_pdf_by_pages total m, c.length ≤ m)
    ∧ (∀ i : Nat, ∀ h : i + 1 < (split_pdf_by_pages total m).length,
        ((split_pdf_by_pages total m).get ⟨i, Nat.lt_of_succ_lt h⟩).length = m)
    ∧ (split_pdf_by_pages 25 10).map List.length = [10, 10, 5] := by
  refine ⟨split_pdf_by_pages_flatten total m hm, split_pdf_by_pages_chunk_le total m,
    ?_, by decide⟩
  intro i h
  exact split_pdf_by_pages_nonfinal total m hm i h

/-- Witness for C2 at the concrete 25-page scenario. -/
theorem C2_split_by_pages_witness :
    0 < 10 ∧ (split_pdf_by_pages 25 10).flatten = List.range 25 :=
  ⟨by decide, (C2_split_by_pages 25 10 (by decide)).1⟩

/-- One iteration of the size-based loop either keeps the finalized chunk
list or appends the nonempty accumulator to it. -/
theorem sizeStep_fst (sizeOf : List Nat → Nat) (target : Nat)
    (st : List (List Nat) × List Nat) (p : Nat) :
    (sizeStep sizeOf target st p).1 = st.1
    ∨ ((sizeStep sizeOf target st p).1 = st.1 ++ [st.2] ∧ st.2 ≠ []) := by
  simp only [sizeStep]
  by_cases hc : target < sizeOf (st.2 ++ [p]) ∧ 1 < (st.2 ++ [p]).length
  · right
    rw [if_pos hc]
    refine ⟨rfl, ?_⟩
    intro hnil
    rw [hnil] at hc
    simp at hc
  · left
    rw [if_neg hc]

/-- Folding the size-based loop preserves the concatenation invariant:
finalized chunks plus the live accumulator always hold exactly the pages
consumed so far. -/
theorem sizeFold_flatten (sizeOf : List Nat → Nat) (target : Nat) :
    ∀ (l : List Nat) (st : List (List Nat) × List Nat),
      (l.foldl (sizeStep sizeOf target) st).1.flatten
        ++ (l.foldl (sizeStep sizeOf target) st).2
      = st.1.flatten ++ st.2 ++ l := by
  intro l
  induction l with
  | nil => intro st; simp
  | cons p l ih =>
      intro st
      rw [List.foldl_cons, ih]
      simp only [sizeStep]
      by_cases hc : target < sizeOf (st.2 ++ [p]) ∧ 1 < (st.2 ++ [p]).length
      · rw [if_pos hc]
        simp [List.flatten_append]
      · rw [if_neg hc]
        simp

/-- Folding the size-based loop keeps every finalized chunk nonempty. -/
theorem sizeFold_nonempty (sizeOf : List Nat → Nat) (target : Nat) :
    ∀ (l : List Nat) (st : List (List Nat) × List Nat),
      (∀ c ∈ st.1, c ≠ []) → ∀ c ∈ (l.foldl (sizeStep sizeOf target) st).1, c ≠ [] := by
  intro l
  induction l with
  | nil => intro st h; exact h
  | cons p l ih =>
      intro st h
      rw [List.foldl_cons]
      apply ih
      rcases sizeStep_fst sizeOf target st p with heq | ⟨heq, hne⟩
      · rw [heq]; exact h
      · rw [heq]
        intro c hc
        rcases List.mem_append.mp hc with h1 | h2
        · exact h c h1
        · rw [List.mem_singleton.mp h2]; exact hne

/-- The size-based splitter emits every source page exactly once, in
order. -/
theorem split_pdf_by_size_flatten (sizeOf : List Nat → Nat) (target total : Nat) :
    (split_pdf_by_size sizeOf target total).flatten = List.range total := by
  have h := sizeFold_flatten sizeOf target (List.range total) ([], [])
  simp only [List.flatten_nil, List.nil_append] at h
  simp only [split_pdf_by_size]
  by_cases h2 : ((List.range total).foldl (sizeStep sizeOf target) ([], [])).2 = []
  · rw [if_pos h2]
    rw [h2, List.append_nil] at h
    exact h
  · rw [if_neg h2]
    rw [List.flatten_append]
    simpa using h

/-- Every chunk the size-based splitter emits is nonempty. -/
theorem split_pdf_by_size_nonempty (sizeOf : List Nat → Nat) (target total : Nat) :
    ∀ c ∈ split_pdf_by_size sizeOf target total, c ≠ [] := by
  intro c hc
  simp only [split_pdf_by_size] at hc
  by_cases h2 : ((List.range total).foldl (sizeStep sizeOf target) ([], [])).2 = []
  · rw [if_pos h2] at hc
    exact sizeFold_nonempty sizeOf target (List.range total) ([], []) (by simp) c hc
  · rw [if_neg h2] at hc
    rcases List.mem_append.mp hc with h1 | h3
    · exact sizeFold_nonempty sizeOf target (List.range total) ([], []) (by simp) c h1
    · rw [List.mem_singleton.mp h3]; exact h2

/-- A one-page PDF always comes back as a single one-page chunk, whatever
its serialized size. -/
theorem split_pdf_by_size_single (sizeOf : List Nat → Nat) (target : Nat) :
    split_pdf_by_size sizeOf target 1 = [[0]] := by
  have h1 : List.range 1 = [0] := rfl
  simp [split_pdf_by_size, sizeStep, h1]

/-- C3: the size-based splitter runs the greedy forward-fill of
process_file.py lines 44-108: it consumes every page exactly once in
order (flattening the chunks gives the page range), finalizes only
nonempty chunks, and a single-page PDF, in particular one whose sole page
exceeds the target size, yields exactly the one chunk [0] rather than
zero chunks or an error. -/
theorem C3_split_by_size (sizeOf : List Nat → Nat) (target total : Nat) :
    (split_pdf_by_size sizeOf target total).flatten = List.range total
    ∧ (∀ c ∈ split_pdf_by_size sizeOf target total, c ≠ [])
    ∧ (total = 1 → split_pdf_by_size sizeOf target total = [[0]]) := by
  refine ⟨split_pdf_by_size_flatten sizeOf target total,
    split_pdf_by_size_nonempty sizeOf target total, ?_⟩
  intro h
  rw [h]
  exact split_pdf_by_size_single sizeOf target

/-- Witness for C3: a one-page PDF whose page is larger than the target
still yields exactly one chunk. -/
theorem C3_split_by_size_witness :
    split_pdf_by_size (fun _ => 100) 1 1 = [[0]] :=
  (C3_split_by_size (fun _ => 100) 1 1).2.2 rfl

/-- C1: the strategy selector of process_file_with_ocr picks exactly one
action with this precedence: a PDF whose measured page count exceeds
maxPages is split by pages even when its size also exceeds maxSizeBytes;
a PDF whose size exceeds maxSizeBytes with pages within maxPages is split
by size; an image whose size exceeds maxSizeBytes is quality-compressed;
and when neither limit is exceeded no split happens and the single source
file stays the only chunk. -/
theorem C1_strategy_selector (fmt : FileFormat) (maxS maxP fileSize pageCount : Nat) :
    (fmt = FileFormat.pdf → maxP < pageCount →
        select_action fmt (needs_splitting ⟨maxS, maxP⟩ fileSize pageCount).1
          (needs_splitting ⟨maxS, maxP⟩ fileSize pageCount).2 = SplitAction.byPages)
    ∧ (fmt = FileFormat.pdf → maxS < fileSize → pageCount ≤ maxP →
        select_action fmt (needs_splitting ⟨maxS, maxP⟩ fileSize pageCount).1
          (needs_splitting ⟨maxS, maxP⟩ fileSize pageCount).2 = SplitAction.bySize)
    ∧ (fmt = FileFormat.image → maxS < fileSize →
        select_action fmt (needs_splitting ⟨maxS, maxP⟩ fileSize pageCount).1
          (needs_splitting ⟨maxS, maxP⟩ fileSize pageCount).2 = SplitAction.compressImage)
    ∧ (fileSize ≤ maxS → pageCount ≤ maxP →
        select_action fmt (needs_splitting ⟨maxS, maxP⟩ fileSize pageCount).1
          (needs_splitting ⟨maxS, maxP⟩ fileSize pageCount).2 = SplitAction.noSplit
        ∧ ∀ (P : FileProcessorCfg) (tempDir : String) (g : FileModel)
            (sizeOf : List Nat → Nat),
              run_split P tempDir g sizeOf SplitAction.noSplit = ([Chunk.original], [])) := by
  refine ⟨?_, ?_, ?_, ?_⟩
  · intro h1 h2
    subst h1
    simp [select_action, needs_splitting, h2]
  · intro h1 h2 h3
    subst h1
    have h4 : ¬ maxP < pageCount := Nat.not_lt.mpr h3
    simp [select_action, needs_splitting, h2, h4]
  · intro h1 h2
    subst h1
    simp [select_action, needs_splitting, h2]
  · intro h1 h2
    have h3 : ¬ maxS < fileSize := Nat.not_lt.mpr h1
    have h4 : ¬ maxP < pageCount := Nat.not_lt.mpr h2
    exact ⟨by simp [select_action, needs_splitting, h3, h4], fun P tempDir g sizeOf => rfl⟩

/-- Witness for C1: an 11-page PDF of size 3 against limits (5, 10) is
split by pages. -/
theorem C1_strategy_selector_witness :
    select_action FileFormat.pdf (needs_splitting ⟨5, 10⟩ 3 11).1
      (needs_splitting ⟨5, 10⟩ 3 11).2 = SplitAction.byPages :=
  (C1_strategy_selector FileFormat.pdf 5 10 3 11).1 rfl (by decide)

/-- C4: the orchestrator collects one extraction result per chunk in
chunk order, drops empty or whitespace-only texts, treats a failing chunk
(none) as contributing nothing while the remaining chunks are still
processed, joins the surviving texts with a single newline, and an
existing file always yields a success result whatever the extractor
does. -/
theorem C4_orchestrator_join (extract : Chunk → Option String) (chunks : List Chunk) :
    combined_text extract chunks
      = String.intercalate "\n" ((chunks.filterMap extract).filter keepText)
    ∧ (∀ (pre : List Chunk) (c : Chunk) (post : List Chunk), extract c = none →
        combined_text extract (pre ++ c :: post) = combined_text extract (pre ++ post))
    ∧ (∀ (P : FileProcessorCfg) (tempDir : String) (f : FileModel)
        (sizeOf : List Nat → Nat), f.onDisk = true →
          (process_file_with_ocr P tempDir f sizeOf extract).isSome = true) := by
  refine ⟨?_, ?_, ?_⟩
  · unfold combined_text
    rw [collect_texts_eq]
  · intro pre c post hc
    unfold combined_text
    rw [collect_texts_eq, collect_texts_eq, List.filterMap_append, List.filterMap_append,
      List.filterMap_cons, hc]
  · intro P tempDir f sizeOf h
    simp [process_file_with_ocr, process_file_run, h]

/-- Witness for C4: a failing chunk contributes nothing. -/
theorem C4_orchestrator_join_witness :
    combined_text (fun _ => none) ([] ++ Chunk.original :: [])
      = combined_text (fun _ => none) ([] ++ []) :=
  (C4_orchestrator_join (fun _ => none) []).2.1 [] Chunk.original [] rfl

/-- C7: when the image is within the limit the compressor returns the
original file unchanged as the sole chunk; when it is over the limit it
re-encodes once into a single compressed chunk at the quality
(target * 90) / currentSize clamped into [10, 90], converting the
transparency and palette modes RGBA, LA and P to RGB, with no re-check of
the resulting size. -/
theorem C7_image_compressor (tempDir : String) (img : ImageFile) (target : Nat) :
    (img.size ≤ target →
        split_image_by_size_run tempDir img target false = ([Chunk.original], []))
    ∧ (target < img.size →
        split_image_by_size_run tempDir img target false
          = ([Chunk.imageChunk (compressedName tempDir img.iname)
                (max 10 (min (target * 90 / img.size) 90)) (convertMode img.mode)],
             [compressedName tempDir img.iname]))
    ∧ 10 ≤ max 10 (min (target * 90 / img.size) 90)
    ∧ max 10 (min (target * 90 / img.size) 90) ≤ 90
    ∧ convertMode ImgMode.rgba = ImgMode.rgb
    ∧ convertMode ImgMode.la = ImgMode.rgb
    ∧ convertMode ImgMode.p = ImgMode.rgb := by
  refine ⟨?_, ?_, Nat.le_max_left _ _, ?_, rfl, rfl, rfl⟩
  · intro h
    simp [split_image_by_size_run, h]
  · intro h
    have h2 : ¬ img.size ≤ target := Nat.not_le.mpr h
    simp [split_image_by_size_run, h2]
  · exact Nat.max_le.mpr ⟨by norm_num, Nat.min_le_right _ _⟩

/-- Witness for C7: a 30-byte RGBA image against a 10-byte limit is
re-encoded at quality 30 in RGB. -/
theorem C7_image_compressor_witness :
    split_image_by_size_run "t" ⟨"pic.png", 30, ImgMode.rgba⟩ 10 false
      = ([Chunk.imageChunk (compressedName "t" "pic.png") 30 ImgMode.rgb],
         [compressedName "t" "pic.png"]) :=
  (C7_image_compressor "t" ⟨"pic.png", 30, ImgMode.rgba⟩ 10).2.1 (by decide)

/-- C8: the inspector returns the pair (size, page count) where a PDF
page count comes from the primary library, falls back to the second
library when the first read fails, and defaults to 1 instead of raising
when both fail; an image always counts as 1 page. -/
theorem C8_file_info (f : FileModel) :
    (get_file_info f).1 = f.size
    ∧ (f.fmt = FileFormat.pdf → f.infoFitzOk = true → (get_file_info f).2 = f.pages)
    ∧ (f.fmt = FileFormat.pdf → f.infoFitzOk = false → f.infoPypdfOk = true →
        (get_file_info f).2 = f.pages)
    ∧ (f.fmt = FileFormat.pdf → f.infoFitzOk = false → f.infoPypdfOk = false →
        (get_file_info f).2 = 1)
    ∧ (f.fmt = FileFormat.image → (get_file_info f).2 = 1) := by
  refine ⟨rfl, ?_, ?_, ?_, ?_⟩
  · intro h1 h2
    simp [get_file_info, h1, h2]
  · intro h1 h2 h3
    simp [get_file_info, h1, h2, h3]
  · intro h1 h2 h3
    simp [get_file_info, h1, h2, h3]
  · intro h1
    simp [get_file_info, h1]

/-- Witness for C8: a PDF whose primary read fails gets its count from
the fallback library. -/
theorem C8_file_info_witness :
    (get_file_info
      ⟨true, "a.pdf", FileFormat.pdf, 5, 7, false, true, none, ImgMode.rgb, false⟩).2 = 7 :=
  (C8_file_info
    ⟨true, "a.pdf", FileFormat.pdf, 5, 7, false, true, none, ImgMode.rgb, false⟩).2.2.1
    rfl rfl rfl

/-- C9: the splitting functions are deterministic in the input pages,
the serialization function and the limits: two runs differing only in
the temporary directory, hence in the chunk file names, produce chunks
with identical page boundaries (and therefore identical serialized
content for the same serialization function). -/
theorem C9_determinism (d1 d2 : String) (sizeOf : List Nat → Nat) (target total m : Nat) :
    (split_pdf_by_size_run d1 sizeOf target total none).1.map chunkPages
      = (split_pdf_by_size_run d2 sizeOf target total none).1.map chunkPages
    ∧ (split_pdf_by_pages_run d1 total m none).1.map chunkPages
      = (split_pdf_by_pages_run d2 total m none).1.map chunkPages := by
  constructor
  · simp only [split_pdf_by_size_run]
    rw [nameChunks_map_pages d1 _ 0, nameChunks_map_pages d2 _ 0]
  · simp only [split_pdf_by_pages_run]
    rw [nameChunks_map_pages d1 _ 0, nameChunks_map_pages d2 _ 0]

/-- C10: on every input whose processing raises an internal exception,
each splitting routine catches it and returns the one-element list
holding the original source file, so a raising input never propagates an
exception and never produces an empty chunk list. -/
theorem C10_splitters_catch (tempDir : String) (sizeOf : List Nat → Nat)
    (target total m k : Nat) (img : ImageFile) :
    (split_pdf_by_size_run tempDir sizeOf target total (some k)).1 = [Chunk.original]
    ∧ (split_pdf_by_pages_run tempDir total m (some k)).1 = [Chunk.original]
    ∧ (split_image_by_size_run tempDir img target true).1 = [Chunk.original]
    ∧ (split_pdf_by_size_run tempDir sizeOf target total (some k)).1 ≠ []
    ∧ (split_pdf_by_pages_run tempDir total m (some k)).1 ≠ []
    ∧ (split_image_by_size_run tempDir img target true).1 ≠ [] := by
  refine ⟨rfl, rfl, rfl, ?_, ?_, ?_⟩ <;> simp [split_pdf_by_size_run,
    split_pdf_by_pages_run, split_image_by_size_run]

/-- C5 counterexample: a corrupt PDF that makes the splitting step raise
does not fail the operation.  The file exists, its size exceeds the
limit, the size splitter raises immediately (splitFailAt = some 0), and
the whole call still reports success with the text OCR extracted from
the original file, instead of surfacing an error with no chunks. -/
theorem C5_unreadable_counterexample :
    process_file_with_ocr defaultCfg "t"
      ⟨true, "doc.pdf", FileFormat.pdf, 10485761, 3, true, true, some 0, ImgMode.rgb, false⟩
      (fun _ => 0) (fun _ => some "x") = some "x" := by
  rfl

/-- C5 amended: only a missing source file makes process_file_with_ocr
fail fast (it returns none with no chunks produced); for every file that
exists the operation always reports success, even when the source is
corrupt, because the page-count read degrades to 1 and a splitter
failure degrades to the original file as the sole chunk. -/
theorem C5_unreadable_amended (P : FileProcessorCfg) (tempDir : String) (f : FileModel)
    (sizeOf : List Nat → Nat) (extract : Chunk → Option String) :
    (f.onDisk = false → process_file_with_ocr P tempDir f sizeOf extract = none)
    ∧ (f.onDisk = true →
        (process_file_with_ocr P tempDir f sizeOf extract).isSome = true) := by
  constructor
  · intro h
    simp [process_file_with_ocr, process_file_run, h]
  · intro h
    simp [process_file_with_ocr, process_file_run, h]

/-- Witness for C5 amended: a missing file yields none. -/
theorem C5_unreadable_amended_witness :
    process_file_with_ocr defaultCfg "t"
      ⟨false, "gone.pdf", FileFormat.pdf, 1, 1, true, true, none, ImgMode.rgb, false⟩
      (fun _ => 0) (fun _ => none) = none :=
  (C5_unreadable_amended defaultCfg "t"
    ⟨false, "gone.pdf", FileFormat.pdf, 1, 1, true, true, none, ImgMode.rgb, false⟩
    (fun _ => 0) (fun _ => none)).1 rfl

/-- C6 counterexample: when the size splitter raises after finalizing a
chunk file, that file survives the call.  A 3-page over-limit PDF whose
serialization makes any two pages over-size finalizes chunk_0 and then
raises at iteration 2; the splitter falls back to the original file, so
the orchestrator cleanup, which only deletes returned chunk paths,
leaves t/chunk_0.pdf on disk. -/
theorem C6_cleanup_counterexample :
    process_file_run defaultCfg "t"
      ⟨true, "big.pdf", FileFormat.pdf, 10485761, 3, true, true, some 2, ImgMode.rgb, false⟩
      (fun l => l.length * 10485760) (fun _ => some "x")
      = some ⟨"x", [Chunk.original], ["t/chunk_0.pdf"]⟩ := by
  rfl

/-- A run of any splitting strategy that raises no internal exception
leaves on disk exactly the chunk files it returns, and the orchestrator
cleanup then removes all of them. -/
theorem run_split_clean (P : FileProcessorCfg) (tempDir : String) (f : FileModel)
    (sizeOf : List Nat → Nat) (a : SplitAction) (hfail : f.splitFailAt = none)
    (himg : f.imgRaises = false) :
    cleanup (run_split P tempDir f sizeOf a).1 (run_split P tempDir f sizeOf a).2 = [] := by
  cases a with
  | byPages =>
      simp only [run_split, split_pdf_by_pages_run, hfail]
      exact cleanup_filterMap_self _
  | bySize =>
      simp only [run_split, split_pdf_by_size_run, hfail]
      exact cleanup_filterMap_self _
  | compressImage =>
      simp only [run_split, split_image_by_size_run, himg, Bool.false_eq_true, if_false]
      by_cases h : f.size ≤ P.max_size_bytes
      · simp [h, cleanup]
      · simp [h, cleanup, chunkPath]
  | noSplit =>
      simp [run_split, cleanup]

/-- C6 amended: after every chunking call in which no splitting routine
raises, no temporary chunk file created by that call remains on disk
(success and per-chunk extraction failure included), and the original
source file is never among the deleted paths; when a splitter does raise
after writing chunk files, those files are abandoned. -/
theorem C6_cleanup_amended (P : FileProcessorCfg) (tempDir : String) (f : FileModel)
    (sizeOf : List Nat → Nat) (extract : Chunk → Option String)
    (hfail : f.splitFailAt = none) (himg : f.imgRaises = false) :
    ∀ r : RunResult, process_file_run P tempDir f sizeOf extract = some r →
      r.leftover = [] := by
  intro r h
  cases hb : f.onDisk with
  | false =>
      rw [process_file_run, hb] at h
      simp at h
  | true =>
      rw [process_file_run, hb] at h
      simp only [Bool.not_true, Bool.false_eq_true, if_false, Option.some.injEq] at h
      rw [← h]
      exact run_split_clean P tempDir f sizeOf _ hfail himg

/-- Witness for C6 amended at a concrete within-limits file. -/
theorem C6_cleanup_amended_witness :
    RunResult.leftover ⟨"y", [Chunk.original], []⟩ = [] :=
  C6_cleanup_amended defaultCfg "t"
    ⟨true, "ok.pdf", FileFormat.pdf, 5, 1, true, true, none, ImgMode.rgb, false⟩
    (fun _ => 0) (fun _ => some "y") rfl rfl ⟨"y", [Chunk.original], []⟩ rfl

end ChunkPipeline
